import Mathlib

/-! # Verification of the praye.rs astronomical prayer-times engine

Shallow embedding of the Rust sources (`src/dmath.rs`, `src/astronomy.rs`,
`src/prayer.rs`) over the real numbers: every `f64` value is modelled as a
real number, `f64::to_radians` / `to_degrees` as multiplication by `π/180`
resp. `180/π`, and the Rust float remainder `%` as `a - b * trunc (a / b)`
(truncated division, the exact value of the float remainder for finite
operands).  The arithmetic-only normalization functions are stated
polymorphically over a `LinearOrderedField` with a `FloorRing` so that the
same definitions serve both the real-valued model and the executable
rational model.  A second executable model (`F64`, rationals plus an
explicit NaN) captures the IEEE behaviour of the few operations involved in
the high-latitude clamp, where NaN propagation is load-bearing.
-/

namespace Prayers

/-- Truncation toward zero: the rounding used by the Rust float remainder
`a % b = a - b * (a / b).trunc()` for finite operands. -/
def rtrunc {α : Type} [LinearOrderedField α] [FloorRing α] (x : α) : α :=
  if 0 ≤ x then (⌊x⌋ : α) else (⌈x⌉ : α)

/-- The Rust float remainder `a % b` for finite operands (`b ≠ 0`). -/
def rrem {α : Type} [LinearOrderedField α] [FloorRing α] (a b : α) : α :=
  a - b * rtrunc (a / b)

namespace dmath

/-- `dmath::fix`: remainder of `a` by `b`, shifted into `[0, b)` when the
Rust `%` returns a negative representative (src/dmath.rs lines 37-44).
The remainder step is exact in f64 as well, but this definition idealizes
the corrective addition `fixed + b` as exact; `fix_f64_binade` below
refines that addition with its IEEE rounding, which matters for inputs
within half an ulp of `0` (see the C8 evidence theorem) and is immaterial
elsewhere in this development. -/
def fix {α : Type} [LinearOrderedField α] [FloorRing α] (a b : α) : α :=
  if rrem a b < 0 then rrem a b + b else rrem a b

/-- `dmath::fix_angle` (src/dmath.rs lines 29-31). -/
def fix_angle {α : Type} [LinearOrderedField α] [FloorRing α] (angle : α) : α :=
  fix angle 360

/-- `dmath::fix_hour` (src/dmath.rs lines 33-35). -/
def fix_hour {α : Type} [LinearOrderedField α] [FloorRing α] (hour : α) : α :=
  fix hour 24

/-- `dmath::sin`: sine of an angle given in degrees (src/dmath.rs lines 1-3). -/
noncomputable def sin (degree : ℝ) : ℝ := Real.sin (degree * (Real.pi / 180))

/-- `dmath::cos` (src/dmath.rs lines 5-7). -/
noncomputable def cos (degree : ℝ) : ℝ := Real.cos (degree * (Real.pi / 180))

/-- `dmath::tan` (src/dmath.rs lines 9-11). -/
noncomputable def tan (degree : ℝ) : ℝ := Real.tan (degree * (Real.pi / 180))

/-- `dmath::arcsin`, result in degrees (src/dmath.rs lines 13-15). -/
noncomputable def arcsin (d : ℝ) : ℝ := Real.arcsin d * (180 / Real.pi)

/-- `dmath::arccos`, result in degrees (src/dmath.rs lines 17-19). -/
noncomputable def arccos (d : ℝ) : ℝ := Real.arccos d * (180 / Real.pi)

/-- `dmath::arccot`, result in degrees (src/dmath.rs lines 21-23). -/
noncomputable def arccot (d : ℝ) : ℝ := Real.arctan (1 / d) * (180 / Real.pi)

/-- The two-argument arctangent of `f64::atan2` restricted to its
quadrant-correct behaviour on finite inputs (value in `(-π, π]`). -/
noncomputable def atan2 (y x : ℝ) : ℝ :=
  if 0 < x then Real.arctan (y / x)
  else if x < 0 then
    (if 0 ≤ y then Real.arctan (y / x) + Real.pi else Real.arctan (y / x) - Real.pi)
  else (if 0 < y then Real.pi / 2 else if y < 0 then -(Real.pi / 2) else 0)

/-- `dmath::arctan2`, result in degrees (src/dmath.rs lines 25-27). -/
noncomputable def arctan2 (y x : ℝ) : ℝ := atan2 y x * (180 / Real.pi)

end dmath

/-! ### Basic facts about the normalization functions -/

theorem fix_nonneg_lt {α : Type} [LinearOrderedField α] [FloorRing α]
    (a b : α) (hb : 0 < b) : 0 ≤ dmath.fix a b ∧ dmath.fix a b < b := by
  have hb' : b ≠ 0 := ne_of_gt hb
  rcases le_or_lt 0 (a / b) with h | h
  · have hval : rrem a b = b * (a / b - (⌊a / b⌋ : α)) := by
      rw [rrem, rtrunc, if_pos h, mul_sub, mul_div_cancel₀ _ hb']
    have h1 : (⌊a / b⌋ : α) ≤ a / b := Int.floor_le _
    have h2 : a / b < (⌊a / b⌋ : α) + 1 := Int.lt_floor_add_one _
    have hge : 0 ≤ rrem a b := by
      rw [hval]; exact mul_nonneg hb.le (by linarith)
    have hlt : rrem a b < b := by
      rw [hval]
      have : b * (a / b - (⌊a / b⌋ : α)) < b * 1 :=
        mul_lt_mul_of_pos_left (by linarith) hb
      linarith
    rw [dmath.fix, if_neg (not_lt.mpr hge)]
    exact ⟨hge, hlt⟩
  · have hval : rrem a b = b * (a / b - (⌈a / b⌉ : α)) := by
      rw [rrem, rtrunc, if_neg (not_le.mpr h), mul_sub, mul_div_cancel₀ _ hb']
    have h1 : a / b ≤ (⌈a / b⌉ : α) := Int.le_ceil _
    have h2 : (⌈a / b⌉ : α) < a / b + 1 := Int.ceil_lt_add_one _
    have hle : rrem a b ≤ 0 := by
      rw [hval]; exact mul_nonpos_of_nonneg_of_nonpos hb.le (by linarith)
    have hgt : -b < rrem a b := by
      rw [hval]
      have : b * (-1) < b * (a / b - (⌈a / b⌉ : α)) :=
        mul_lt_mul_of_pos_left (by linarith) hb
      linarith
    rcases lt_or_eq_of_le hle with hlt | heq
    · rw [dmath.fix, if_pos hlt]
      constructor <;> linarith
    · rw [dmath.fix, if_neg (by rw [heq]; exact lt_irrefl 0), heq]
      exact ⟨le_refl 0, hb⟩

/-- On an input already in `[0, b)` the normalization is the identity. -/
theorem fix_eq_self {α : Type} [LinearOrderedField α] [FloorRing α]
    {a b : α} (hb : 0 < b) (h0 : 0 ≤ a) (h1 : a < b) : dmath.fix a b = a := by
  have hq0 : 0 ≤ a / b := div_nonneg h0 hb.le
  have hq1 : a / b < 1 := (div_lt_one hb).mpr h1
  have hfl : ⌊a / b⌋ = 0 := Int.floor_eq_zero_iff.mpr ⟨hq0, hq1⟩
  have hrem : rrem a b = a := by
    rw [rrem, rtrunc, if_pos hq0, hfl]
    push_cast
    ring
  rw [dmath.fix, hrem, if_neg (not_lt.mpr h0)]

/-- On an input in `(-b, 0)` the normalization adds one period. -/
theorem fix_of_neg {α : Type} [LinearOrderedField α] [FloorRing α]
    {a b : α} (hb : 0 < b) (h0 : -b < a) (h1 : a < 0) : dmath.fix a b = a + b := by
  have hq0 : -1 < a / b := by
    rw [neg_lt, ← neg_div]
    exact (div_lt_one hb).mpr (by linarith)
  have hqneg : a / b < 0 := div_neg_of_neg_of_pos h1 hb
  have hcl : ⌈a / b⌉ = 0 := by
    rw [Int.ceil_eq_iff]
    constructor
    · push_cast; linarith
    · push_cast; linarith
  have hrem : rrem a b = a := by
    rw [rrem, rtrunc, if_neg (not_le.mpr hqneg), hcl]
    push_cast
    ring
  rw [dmath.fix, hrem, if_pos h1]

/-! ### astronomy.rs -/

/-- `Coordinates(lat, lng, elev)` (src/astronomy.rs line 14): latitude and
longitude in degrees, elevation in meters. -/
structure Coordinates where
  lat : ℝ
  lng : ℝ
  elev : ℝ

/-- A UTC calendar date, the data `get_julian_day` reads from `Date<Utc>`. -/
structure DateUtc where
  year : ℤ
  month : ℤ
  day : ℤ

/-- `astronomy::get_julian_day` (src/astronomy.rs lines 16-27).  The branch
condition, the subtraction and the floor act on exact values here; on `f64`
the products `365.2425 * year` and `30.6001 * month` carry a relative
rounding error around `1e-16`, far from the distance of the fractional part
to an integer for the dates considered below, so the floor agrees. -/
noncomputable def get_julian_day (date : DateUtc) : ℝ :=
  let year : ℝ := if date.month < 3 then (date.year : ℝ) - 1 else (date.year : ℝ)
  let month : ℝ := if date.month < 3 then (date.month : ℝ) + 12 else (date.month : ℝ)
  (⌊(365.2425 : ℝ) * year + 30.6001 * month⌋ : ℤ) + (date.day : ℝ) + 1721027.5

/-- `astronomy::sun_position` (src/astronomy.rs lines 47-60); returns the
pair (declination, equation of time). -/
noncomputable def sun_position (jd : ℝ) : ℝ × ℝ :=
  let D := jd - 2451545.0
  let q := dmath.fix_angle (280.46061837 + 0.98564736 * D)
  let g := dmath.fix_angle (357.528 + 0.98560028 * D)
  let L := dmath.fix_angle (q + 1.915 * dmath.sin g + 0.020 * dmath.sin (2 * g))
  let e := 23.439 - 0.00000036 * D
  let decl := dmath.arcsin (dmath.sin e * dmath.sin L)
  let eqt := q / 15 - dmath.fix_hour (dmath.arctan2 (dmath.cos e * dmath.sin L) (dmath.cos L) / 15)
  (decl, eqt)

/-- `astronomy::mid_day` (src/astronomy.rs lines 29-32). -/
noncomputable def mid_day (julian_date time : ℝ) : ℝ :=
  dmath.fix_hour (12 - (sun_position (julian_date + time)).2)

/-- The angle-hour solver of `astronomy::sun_angle_time` expressed on an
already-sampled ephemeris pair `(decl, eqt)`; `sun_angle_time` below
recovers the source function by sampling `sun_position` at `jd + time`,
exactly as src/astronomy.rs lines 34-43 do. -/
noncomputable def sun_angle_time_at (decl eqt latitude angle : ℝ) (ccw : Bool) : ℝ :=
  let t := 1 / 15 *
    dmath.arccos ((-dmath.sin angle - dmath.sin decl * dmath.sin latitude) /
      (dmath.cos decl * dmath.cos latitude))
  dmath.fix_hour (12 - eqt) + if ccw then -t else t

/-- `astronomy::sun_angle_time` (src/astronomy.rs lines 34-43). -/
noncomputable def sun_angle_time (julian_date latitude angle time : ℝ) (ccw : Bool) : ℝ :=
  sun_angle_time_at (sun_position (julian_date + time)).1 (sun_position (julian_date + time)).2
    latitude angle ccw

/-- `astronomy::rise_set_angle` (src/astronomy.rs lines 62-66). -/
noncomputable def rise_set_angle (elevation : ℝ) : ℝ :=
  let earth_radius : ℝ := 6371008.7714
  let angle := dmath.arccos (earth_radius / (earth_radius + elevation))
  0.833 + angle

/-! ### prayer.rs: data model -/

/-- `prayer::CalculationType` (src/prayer.rs lines 7-12). -/
inductive CalculationType (α : Type) where
  | Angle (v : α)
  | Minutes (v : α)
deriving DecidableEq

/-- `CalculationType::unwrap` (src/prayer.rs lines 14-18). -/
def CalculationType.unwrap {α : Type} : CalculationType α → α
  | .Angle v => v
  | .Minutes v => v

/-- `prayer::MidnightMethod` (src/prayer.rs lines 23-28). -/
inductive MidnightMethod where
  | Standard
  | Jafari
deriving DecidableEq

/-- `prayer::AsrJuristic` (src/prayer.rs lines 32-37). -/
inductive AsrJuristic where
  | Standard
  | Hanafi
deriving DecidableEq

/-- `prayer::CalculationMethod` (src/prayer.rs lines 41-51): `fajr` is an
angle in degrees, `dhuhr` an offset in minutes. -/
structure CalculationMethod (α : Type) where
  imsak : CalculationType α
  fajr : α
  dhuhr : α
  asr : AsrJuristic
  maghrib : CalculationType α
  isha : CalculationType α
  midnight : MidnightMethod
deriving DecidableEq

/-- `CalculationMethod::new` (src/prayer.rs lines 55-72). -/
def CalculationMethod.new {α : Type} [OfScientific α] [OfNat α 0] [OfNat α 10]
    (imsak : Option (CalculationType α)) (fajr : α) (asr : Option AsrJuristic)
    (maghrib : Option (CalculationType α)) (isha : CalculationType α)
    (midnight : Option MidnightMethod) : CalculationMethod α where
  imsak := imsak.getD (.Minutes 10)
  fajr := fajr
  dhuhr := 0
  asr := asr.getD .Standard
  maghrib := maghrib.getD (.Minutes 0)
  isha := isha
  midnight := midnight.getD .Standard

/-- `CalculationMethod::from` (src/prayer.rs lines 75-77); `from` is a
reserved word in Lean, hence the longer name. -/
def CalculationMethod.ofFajrIsha {α : Type} [OfScientific α] [OfNat α 0] [OfNat α 10]
    (fajr : α) (isha : CalculationType α) : CalculationMethod α :=
  CalculationMethod.new none fajr none none isha none

/-- `prayer::CalculationMethods` (src/prayer.rs lines 82-124). -/
inductive CalculationMethods (α : Type) where
  | MWL
  | ISNA
  | Egypt
  | Makkah (is_ramadan : Bool)
  | Karachi
  | Tehran
  | Jafari
  | MF
  | Custom (value : CalculationMethod α)

/-- `prayer::PrayerTimes` (src/prayer.rs lines 128-147). -/
structure PrayerTimes (α : Type) where
  imsak : α
  fajr : α
  sunrise : α
  dhuhr : α
  asr : α
  sunset : α
  maghrib : α
  isha : α
  midnight : α
deriving DecidableEq

/-- `prayer::HightLatMethods` (src/prayer.rs lines 153-177, name as in the
source). -/
inductive HightLatMethods where
  | NightMiddle
  | AngleBased
  | OneSeventh
deriving DecidableEq

/-- `prayer::time_diff` (src/prayer.rs lines 179-181). -/
def time_diff {α : Type} [LinearOrderedField α] [FloorRing α] (time1 time2 : α) : α :=
  dmath.fix_hour (time2 - time1)

/-- `prayer::PrayerManager` (src/prayer.rs lines 195-199). -/
structure PrayerManager (α : Type) where
  method : CalculationMethod α
  high_lats : Option HightLatMethods

/-- `PrayerManager::get_calculation_method` (src/prayer.rs lines 210-239). -/
def PrayerManager.get_calculation_method {α : Type} [OfScientific α] [OfNat α 0] [OfNat α 10]
    (calculation_method : CalculationMethods α) : CalculationMethod α :=
  match calculation_method with
  | .MWL => CalculationMethod.ofFajrIsha 18.0 (.Angle 17.0)
  | .ISNA => CalculationMethod.ofFajrIsha 15.0 (.Angle 15.0)
  | .Egypt => CalculationMethod.ofFajrIsha 19.5 (.Angle 17.5)
  | .Makkah is_ramadan =>
      CalculationMethod.ofFajrIsha 18.5 (.Minutes (if is_ramadan then 120.0 else 90.0))
  | .Karachi => CalculationMethod.ofFajrIsha 18.0 (.Angle 18.0)
  | .Tehran =>
      CalculationMethod.new none 17.7 none (some (.Angle 4.5)) (.Angle 14.0)
        (some MidnightMethod.Jafari)
  | .Jafari =>
      CalculationMethod.new none 16.0 none (some (.Angle 4.0)) (.Angle 14.0)
        (some MidnightMethod.Jafari)
  | .MF => CalculationMethod.ofFajrIsha 12.0 (.Angle 12.0)
  | .Custom value => value

/-- `PrayerManager::new` (src/prayer.rs lines 202-207). -/
def PrayerManager.new {α : Type} [OfScientific α] [OfNat α 0] [OfNat α 10]
    (method : CalculationMethods α) (high_lats : Option HightLatMethods) : PrayerManager α :=
  ⟨PrayerManager.get_calculation_method method, high_lats⟩

/-- `PrayerManager::night_portion` (src/prayer.rs lines 369-375).  The
source unwraps `self.high_lats`; it is only reached with the strategy
present, so the strategy is an explicit argument here. -/
def night_portion {α : Type} [LinearOrderedField α] [FloorRing α]
    (hl : HightLatMethods) (angle night : α) : α :=
  (match hl with
    | .NightMiddle => 1 / 2
    | .AngleBased => 1 / 60 * angle
    | .OneSeventh => 1 / 7) * night

/-- `PrayerManager::adjust_highlat_time` (src/prayer.rs lines 343-356),
with the unwrapped strategy as first argument. -/
def adjust_highlat_time {α : Type} [LinearOrderedField α] [FloorRing α]
    (hl : HightLatMethods) (time base angle night : α) (ccw : Bool) : α :=
  let portion := night_portion hl angle night
  let diff := if ccw then time_diff time base else time_diff base time
  if portion > diff then time else base + if ccw then -portion else portion

/-- `PrayerManager::asr_time` with the ephemeris pair already sampled;
`asr_time` below recovers src/prayer.rs lines 358-367, whose inner
`sun_angle_time` call re-samples `sun_position` at the same instant
`julian_day + time`. -/
noncomputable def asr_time_at (decl eqt latitude : ℝ) (factor_type : AsrJuristic) : ℝ :=
  let factor : ℝ := match factor_type with
    | .Standard => 1.0
    | .Hanafi => 2.0
  let angle := -dmath.arccot (factor + dmath.tan |latitude - decl|)
  sun_angle_time_at decl eqt latitude angle false

/-- `PrayerManager::asr_time` (src/prayer.rs lines 358-367). -/
noncomputable def asr_time (julian_day latitude : ℝ) (factor_type : AsrJuristic)
    (time : ℝ) : ℝ :=
  asr_time_at (sun_position (julian_day + time)).1 (sun_position (julian_day + time)).2
    latitude factor_type

/-! ### prayer.rs: the orchestrator

`get_times` (src/prayer.rs lines 253-341) is split into the raw
angle-derived solutions (lines 254-302, trigonometric) and the pure
arithmetic post-processing (lines 304-340: high-latitude clamp,
minutes-based overrides, midnight), composed in `PrayerManager.get_times`
below.  The split mirrors the source exactly: the mutated locals
`imsak`, `fajr`, `maghrib`, `isha` become the fields of `highlat_adjusted`,
and the overrides read the adjusted values just as the source reads the
mutated locals. -/

/-- The eight per-event solutions computed by src/prayer.rs lines 254-302
before any correction, already shifted by `adjust = lng / 15`. -/
structure RawTimes (α : Type) where
  imsak : α
  fajr : α
  sunrise : α
  dhuhr : α
  asr : α
  sunset : α
  maghrib : α
  isha : α

/-- Lines 254-302 of src/prayer.rs: the six `sun_angle_time` queries, the
`mid_day` call and the `asr_time` call. -/
noncomputable def raw_times (method : CalculationMethod ℝ) (date : DateUtc)
    (coords : Coordinates) : RawTimes ℝ :=
  let julian_day := get_julian_day date - coords.lng / (15 * 24)
  let adjust := coords.lng / 15
  { imsak := sun_angle_time julian_day coords.lat method.imsak.unwrap (5 / 24) true - adjust
    fajr := sun_angle_time julian_day coords.lat method.fajr (5 / 24) true - adjust
    sunrise :=
      sun_angle_time julian_day coords.lat (rise_set_angle coords.elev) (6 / 24) true - adjust
    dhuhr := mid_day julian_day (12 / 24) - adjust + method.dhuhr / 60
    asr := asr_time julian_day coords.lat method.asr (13 / 24) - adjust
    sunset :=
      sun_angle_time julian_day coords.lat (rise_set_angle coords.elev) (18 / 24) false - adjust
    maghrib := sun_angle_time julian_day coords.lat method.maghrib.unwrap (18 / 24) false - adjust
    isha := sun_angle_time julian_day coords.lat method.isha.unwrap (18 / 24) false - adjust }

/-- Lines 304-312 of src/prayer.rs: when a high-latitude strategy is set,
clamp Imsak and Fajr against Sunrise and Maghrib and Isha against Sunset. -/
def highlat_adjusted {α : Type} [LinearOrderedField α] [FloorRing α]
    (pm : PrayerManager α) (r : RawTimes α) : RawTimes α :=
  match pm.high_lats with
  | none => r
  | some hl =>
    let night_time := time_diff r.sunset r.sunrise
    { r with
      imsak := adjust_highlat_time hl r.imsak r.sunrise pm.method.imsak.unwrap night_time true
      fajr := adjust_highlat_time hl r.fajr r.sunrise pm.method.fajr night_time true
      maghrib := adjust_highlat_time hl r.maghrib r.sunset pm.method.maghrib.unwrap night_time false
      isha := adjust_highlat_time hl r.isha r.sunset pm.method.isha.unwrap night_time false }

/-- Lines 304-340 of src/prayer.rs: high-latitude clamp, minutes-based
overrides (which read the possibly clamped values and, for Isha, the
possibly overridden Maghrib), and the midnight derivation. -/
def postprocess {α : Type} [LinearOrderedField α] [FloorRing α]
    (pm : PrayerManager α) (r : RawTimes α) : PrayerTimes α :=
  let a := highlat_adjusted pm r
  let imsak := match pm.method.imsak with
    | .Minutes minutes => a.fajr - minutes / 60
    | .Angle _ => a.imsak
  let maghrib := match pm.method.maghrib with
    | .Minutes minutes => a.sunset - minutes / 60
    | .Angle _ => a.maghrib
  let isha := match pm.method.isha with
    | .Minutes minutes => maghrib - minutes / 60
    | .Angle _ => a.isha
  let midnight := a.sunset +
    (match pm.method.midnight with
      | .Standard => time_diff a.sunset a.sunrise
      | .Jafari => time_diff a.sunset a.fajr) / 2
  { imsak := imsak
    fajr := a.fajr
    sunrise := a.sunrise
    dhuhr := a.dhuhr
    asr := a.asr
    sunset := a.sunset
    maghrib := maghrib
    isha := isha
    midnight := midnight }

/-- `PrayerManager::get_times` (src/prayer.rs lines 253-341). -/
noncomputable def PrayerManager.get_times (pm : PrayerManager ℝ) (date : DateUtc)
    (coords : Coordinates) : PrayerTimes ℝ :=
  postprocess pm (raw_times pm.method date coords)

/-! ### An executable IEEE-style model with an explicit NaN

The real-valued model above cannot express the NaN produced by `acos` on an
out-of-range argument, yet the high-latitude clamp of
`adjust_highlat_time` relies on IEEE comparison semantics (`portion > diff`
is false when `diff` is NaN) to replace unsolvable events.  `F64` models a
double as either NaN or a finite value (a rational: every finite double is
rational); the operations below follow IEEE-754 for the operations the
clamp path actually performs: `-`, `%`, `+`, `*` propagate NaN, division of
the remainder by zero yields NaN, and `<` is false whenever either side is
NaN. -/

inductive F64 where
  | nan
  | fin (q : ℚ)
deriving DecidableEq

namespace F64

def add : F64 → F64 → F64
  | fin a, fin b => fin (a + b)
  | _, _ => nan

def sub : F64 → F64 → F64
  | fin a, fin b => fin (a - b)
  | _, _ => nan

def neg : F64 → F64
  | fin a => fin (-a)
  | nan => nan

def mul : F64 → F64 → F64
  | fin a, fin b => fin (a * b)
  | _, _ => nan

/-- IEEE remainder as used by Rust `%`: NaN-propagating, NaN on a zero
divisor, otherwise `a - b * trunc (a / b)`. -/
def rem : F64 → F64 → F64
  | fin a, fin b => if b = 0 then nan else fin (a - b * rtrunc (a / b))
  | _, _ => nan

/-- IEEE `<`: false whenever either operand is NaN. -/
def lt : F64 → F64 → Bool
  | fin a, fin b => decide (a < b)
  | _, _ => false

end F64

/-- `dmath::fix` on the NaN-aware model (src/dmath.rs lines 37-44): the
comparison `fixed < 0.0` is false for NaN, so a NaN remainder flows
through unchanged. -/
def fixF (a b : F64) : F64 :=
  if (F64.rem a b).lt (.fin 0) then (F64.rem a b).add b else F64.rem a b

/-- `dmath::fix_hour` on the NaN-aware model. -/
def fix_hourF (hour : F64) : F64 := fixF hour (.fin 24)

/-- `prayer::time_diff` on the NaN-aware model. -/
def time_diffF (time1 time2 : F64) : F64 := fix_hourF (time2.sub time1)

/-- `PrayerManager::night_portion` on the NaN-aware model. -/
def night_portionF (hl : HightLatMethods) (angle night : F64) : F64 :=
  (match hl with
    | .NightMiddle => F64.fin (1 / 2)
    | .AngleBased => (F64.fin (1 / 60)).mul angle
    | .OneSeventh => F64.fin (1 / 7)).mul night

/-- `PrayerManager::adjust_highlat_time` on the NaN-aware model
(src/prayer.rs lines 343-356): `portion > diff` is `diff < portion`. -/
def adjust_highlat_timeF (hl : HightLatMethods) (time base angle night : F64)
    (ccw : Bool) : F64 :=
  let portion := night_portionF hl angle night
  let diff := if ccw then time_diffF time base else time_diffF base time
  if diff.lt portion then time else base.add (if ccw then portion.neg else portion)

/-! ### The rounding of the corrective addition in `dmath::fix`

In f64 the remainder `a % b` is exact, but the corrective sum `fixed + b`
is rounded to the nearest double.  For a base in the binade `[16, 32)` —
which contains 24, the `fix_hour` base — every double is a multiple of
`2⁻⁴⁸` (the ulp there), so that rounding is round-to-nearest on the
`2⁻⁴⁸` grid. -/

/-- Round to nearest on the grid of spacing `2⁻⁴⁸`, the IEEE double ulp
throughout the binade `[16, 32)`.  `round` resolves exact ties upward
where IEEE ties to even; no value this development evaluates is a tie. -/
def round48 (x : ℚ) : ℚ := ((round (x * 2 ^ 48) : ℤ) : ℚ) / 2 ^ 48

/-- `dmath::fix` as f64 executes it on operands whose remainder step is
exact (IEEE fmod always is) and whose corrective sum lands in the binade
`[16, 32)`: the same branches as `dmath.fix`, with the addition's IEEE
rounding made explicit.  The else branch returns the exact remainder, a
double already, so it needs no rounding. -/
def fix_f64_binade (a b : ℚ) : ℚ :=
  if rrem a b < 0 then round48 (rrem a b + b) else rrem a b

/-! ### Evaluation helpers -/

theorem fix_hour_eval {x : ℝ} (h0 : 0 ≤ x) (h1 : x < 24) : dmath.fix_hour x = x := by
  rw [dmath.fix_hour]; exact fix_eq_self (by norm_num) h0 h1

theorem fix_hour_eval_neg {x : ℝ} (h0 : -24 < x) (h1 : x < 0) :
    dmath.fix_hour x = x + 24 := by
  rw [dmath.fix_hour]; exact fix_of_neg (by norm_num) h0 h1

theorem fixF_fin (a : ℚ) {b : ℚ} (hb : b ≠ 0) :
    fixF (.fin a) (.fin b) = .fin (dmath.fix a b) := by
  simp only [fixF, F64.rem, if_neg hb, F64.lt, F64.add, dmath.fix, rrem,
    decide_eq_true_eq]
  by_cases h : a - b * rtrunc (a / b) < 0
  · rw [if_pos h, if_pos h]
  · rw [if_neg h, if_neg h]

theorem time_diffF_fin (t1 t2 : ℚ) :
    time_diffF (.fin t1) (.fin t2) = .fin (time_diff t1 t2) := by
  rw [time_diffF, F64.sub, fix_hourF, time_diff, dmath.fix_hour, fixF_fin _ (by norm_num)]

theorem night_portionF_fin (hl : HightLatMethods) (angle night : ℚ) :
    night_portionF hl (.fin angle) (.fin night) = .fin (night_portion hl angle night) := by
  cases hl <;> simp only [night_portionF, night_portion, F64.mul]

/-- A NaN raw time in the before-noon direction: the diff is NaN, the IEEE
`portion > diff` is false, and the clamp returns `base - portion`. -/
theorem adjust_highlat_timeF_nan_ccw (hl : HightLatMethods) (base angle night : ℚ) :
    adjust_highlat_timeF hl .nan (.fin base) (.fin angle) (.fin night) true =
      .fin (base + -night_portion hl angle night) := by
  cases hl <;> rfl

/-- A NaN raw time in the after-noon direction: the clamp returns
`base + portion`. -/
theorem adjust_highlat_timeF_nan_cw (hl : HightLatMethods) (base angle night : ℚ) :
    adjust_highlat_timeF hl .nan (.fin base) (.fin angle) (.fin night) false =
      .fin (base + night_portion hl angle night) := by
  cases hl <;> rfl

/-! ### Claim theorems -/

/-- In exact arithmetic `fix_angle` returns a value in `[0, 360)` and
`fix_hour` one in `[0, 24)`, both are idempotent, and `fix_hour (-1) = 23`.
The f64 code falls short of this only through the rounding of the
corrective addition: see the C8 evidence theorem
`normalize_hour_escapes_range`. -/
theorem fix_in_range_exact (x : ℝ) :
    (0 ≤ dmath.fix_angle x ∧ dmath.fix_angle x < 360) ∧
    (0 ≤ dmath.fix_hour x ∧ dmath.fix_hour x < 24) ∧
    dmath.fix_angle (dmath.fix_angle x) = dmath.fix_angle x ∧
    dmath.fix_hour (dmath.fix_hour x) = dmath.fix_hour x ∧
    dmath.fix_hour (-1 : ℝ) = 23 := by
  have ha := fix_nonneg_lt x (360 : ℝ) (by norm_num)
  have hh := fix_nonneg_lt x (24 : ℝ) (by norm_num)
  simp only [dmath.fix_angle, dmath.fix_hour] at *
  refine ⟨ha, hh, ?_, ?_, ?_⟩
  · exact fix_eq_self (by norm_num) ha.1 ha.2
  · exact fix_eq_self (by norm_num) hh.1 hh.2
  · rw [fix_of_neg (by norm_num) (by norm_num) (by norm_num)]; norm_num

/-- C8 (evidence for the code bug): the f64 evaluation of
`fix_hour (-2⁻⁵⁴)` returns exactly 24.  The remainder step gives
`-2⁻⁵⁴` exactly, the branch `fixed < 0.0` is taken, and the corrective sum
`-2⁻⁵⁴ + 24.0` rounds to `24.0` because `2⁻⁵⁴` is below half an ulp of 24.
The result violates the claimed `[0, 24)` range, and re-normalizing it
(`24 % 24 = 0`, not negative — a step that is exact in f64, so the exact
model applies) yields `0 ≠ 24`, so the function is not idempotent at this
input either.  In exact arithmetic the claim holds (`fix_in_range_exact`);
only this rounding breaks it. -/
theorem normalize_hour_escapes_range :
    fix_f64_binade (-(2 ^ 54 : ℚ)⁻¹) 24 = 24 ∧
    ¬ fix_f64_binade (-(2 ^ 54 : ℚ)⁻¹) 24 < 24 ∧
    dmath.fix (fix_f64_binade (-(2 ^ 54 : ℚ)⁻¹) 24) 24 ≠
      fix_f64_binade (-(2 ^ 54 : ℚ)⁻¹) 24 := by
  have hrem : rrem (-(2 ^ 54 : ℚ)⁻¹) 24 = -(2 ^ 54 : ℚ)⁻¹ := by
    rw [rrem, rtrunc, if_neg (by norm_num), show ⌈(-(2 ^ 54 : ℚ)⁻¹ / 24)⌉ = 0 by
      rw [Int.ceil_eq_iff]
      norm_num]
    norm_num
  have hround : round48 (-(2 ^ 54 : ℚ)⁻¹ + 24) = 24 := by
    rw [round48, round_eq, show (-(2 ^ 54 : ℚ)⁻¹ + 24) * 2 ^ 48 + 1 / 2 =
        24 * 2 ^ 48 + 31 / 64 by norm_num,
      show ⌊(24 * 2 ^ 48 + 31 / 64 : ℚ)⌋ = 24 * 2 ^ 48 by
        rw [Int.floor_eq_iff]
        norm_num]
    norm_num
  have hmain : fix_f64_binade (-(2 ^ 54 : ℚ)⁻¹) 24 = 24 := by
    rw [fix_f64_binade, hrem, if_pos (by norm_num), hround]
  have hrem24 : rrem (24 : ℚ) 24 = 0 := by
    rw [rrem, rtrunc, if_pos (show (0 : ℚ) ≤ 24 / 24 by norm_num),
      show ⌊(24 / 24 : ℚ)⌋ = 1 by norm_num]
    norm_num
  have hfix24 : dmath.fix (24 : ℚ) 24 = 0 := by
    rw [dmath.fix, hrem24, if_neg (by norm_num)]
  refine ⟨hmain, by rw [hmain]; norm_num, ?_⟩
  rw [hmain, hfix24]
  norm_num

/-- C4 counterexample: `get_julian_day` on 2000-01-01 does not return the
standard reference epoch value 2451544.5: the January shift produces
`floor(365.2425 * 1999 + 30.6001 * 13) = 730517` and hence 2451545.5, one
day above the reference. -/
theorem julian_day_jan_2000_ne_reference :
    get_julian_day ⟨2000, 1, 1⟩ ≠ 2451544.5 := by
  have hfl : ⌊(365.2425 : ℝ) * ((2000 : ℝ) - 1) + 30.6001 * ((1 : ℝ) + 12)⌋ = 730517 := by
    rw [Int.floor_eq_iff]
    norm_num
  simp only [get_julian_day, show ((1 : ℤ) < 3) = True by simp, if_true]
  push_cast
  rw [hfl]
  norm_num

/-- C4 amended: `get_julian_day` on 2000-01-01 returns exactly 2451545.5,
one day above the standard reference constant for that date. -/
theorem julian_day_jan_2000_value :
    get_julian_day ⟨2000, 1, 1⟩ = 2451545.5 := by
  have hfl : ⌊(365.2425 : ℝ) * ((2000 : ℝ) - 1) + 30.6001 * ((1 : ℝ) + 12)⌋ = 730517 := by
    rw [Int.floor_eq_iff]
    norm_num
  simp only [get_julian_day, show ((1 : ℤ) < 3) = True by simp, if_true]
  push_cast
  rw [hfl]
  norm_num

/-- C1 counterexample: with NightMiddle, night length 10 and a raw time one
hour before the base, the portion (5) exceeds the diff (1) and the source
keeps the raw time, instead of replacing it with `base - portion` as the
claim states. -/
theorem highlat_keeps_raw_when_portion_gt_diff :
    night_portion HightLatMethods.NightMiddle (18 : ℝ) 10 > time_diff (5 : ℝ) 6 ∧
    adjust_highlat_time HightLatMethods.NightMiddle (5 : ℝ) 6 18 10 true = 5 ∧
    adjust_highlat_time HightLatMethods.NightMiddle (5 : ℝ) 6 18 10 true ≠
      6 - night_portion HightLatMethods.NightMiddle (18 : ℝ) 10 := by
  have hnp : night_portion HightLatMethods.NightMiddle (18 : ℝ) 10 = 5 := by
    simp only [night_portion]; norm_num
  have hd : time_diff (5 : ℝ) 6 = 1 := by
    rw [time_diff, show (6 : ℝ) - 5 = 1 by norm_num, fix_hour_eval] <;> norm_num
  have hadj : adjust_highlat_time HightLatMethods.NightMiddle (5 : ℝ) 6 18 10 true = 5 := by
    rw [adjust_highlat_time]
    simp only [if_true]
    rw [if_pos (by rw [hnp, hd]; norm_num)]
  refine ⟨by rw [hnp, hd]; norm_num, hadj, by rw [hadj, hnp]; norm_num⟩

/-- C1 amended: `adjust_highlat_time` keeps the raw solved time exactly
when `night_portion > diff` (the raw solution lies within the allowed
portion of the night), and replaces it with `base - portion` (before-noon)
resp. `base + portion` (after-noon) exactly when `night_portion ≤ diff`
(with `diff` measured raw-to-sunrise before noon and sunset-to-raw after
noon) — the opposite direction to the one the claim states. -/
theorem adjust_highlat_time_cases (hl : HightLatMethods)
    (time base angle night : ℝ) (ccw : Bool) :
    (night_portion hl angle night ≤
        (if ccw then time_diff time base else time_diff base time) →
      adjust_highlat_time hl time base angle night ccw =
        base + if ccw then -night_portion hl angle night else night_portion hl angle night) ∧
    ((if ccw then time_diff time base else time_diff base time) <
        night_portion hl angle night →
      adjust_highlat_time hl time base angle night ccw = time) := by
  constructor
  · intro h
    rw [adjust_highlat_time, if_neg (not_lt.mpr h)]
  · intro h
    rw [adjust_highlat_time, if_pos h]

/-- Witness for `adjust_highlat_time_cases` at concrete inputs: a raw time
6 hours before a base 6 with portion 5 is clamped to `6 - 5`, and a raw
time 1 hour before the base is kept. -/
theorem adjust_highlat_time_cases_witness :
    adjust_highlat_time HightLatMethods.NightMiddle (0 : ℝ) 6 18 10 true =
      6 + -night_portion HightLatMethods.NightMiddle (18 : ℝ) 10 ∧
    adjust_highlat_time HightLatMethods.NightMiddle (5 : ℝ) 6 18 10 true = 5 := by
  have hnp : night_portion HightLatMethods.NightMiddle (18 : ℝ) 10 = 5 := by
    simp only [night_portion]; norm_num
  constructor
  · have h := (adjust_highlat_time_cases HightLatMethods.NightMiddle 0 6 18 10 true).1
    simp only [if_true] at h
    exact h (by
      rw [hnp, time_diff, show (6 : ℝ) - 0 = 6 by norm_num, fix_hour_eval] <;> norm_num)
  · have h := (adjust_highlat_time_cases HightLatMethods.NightMiddle 5 6 18 10 true).2
    simp only [if_true] at h
    exact h (by
      rw [hnp, time_diff, show (6 : ℝ) - 5 = 1 by norm_num, fix_hour_eval] <;> norm_num)

/-- C10: with a high-latitude strategy and finite sunrise, sunset and
method angle, a NaN raw solution is replaced with the finite value
`sunrise - night_portion` (before-noon direction) resp.
`sunset + night_portion` (after-noon direction), where the night length is
`fix_hour (sunrise - sunset)`: the IEEE comparison `portion > NaN` is
false, so the clamp takes the replacement branch and NaN does not reach
the output. -/
theorem nan_raw_time_replaced (hl : HightLatMethods) (sunrise sunset angle : ℚ) :
    adjust_highlat_timeF hl .nan (.fin sunrise) (.fin angle)
        (time_diffF (.fin sunset) (.fin sunrise)) true =
      .fin (sunrise - night_portion hl angle (dmath.fix (sunrise - sunset) 24)) ∧
    adjust_highlat_timeF hl .nan (.fin sunset) (.fin angle)
        (time_diffF (.fin sunset) (.fin sunrise)) false =
      .fin (sunset + night_portion hl angle (dmath.fix (sunrise - sunset) 24)) := by
  have hnight : time_diffF (.fin sunset) (.fin sunrise) =
      .fin (dmath.fix (sunrise - sunset) 24) := by
    rw [time_diffF_fin, time_diff, dmath.fix_hour]
  constructor
  · rw [hnight, adjust_highlat_timeF_nan_ccw]
    congr 1
    ring
  · rw [hnight, adjust_highlat_timeF_nan_cw]

/-- C5: after the high-latitude step, a minutes-valued parameter overrides
the angle-derived value: Imsak = Fajr - minutes/60, Maghrib = Sunset -
minutes/60, Isha = Maghrib - minutes/60 with Isha reading the
possibly-already-overridden Maghrib; an angle-valued parameter leaves the
(possibly clamped) angle-derived value untouched in this step. -/
theorem minutes_overrides (pm : PrayerManager ℝ) (r : RawTimes ℝ) :
    (∀ m : ℝ, pm.method.imsak = .Minutes m →
      (postprocess pm r).imsak = (postprocess pm r).fajr - m / 60) ∧
    (∀ m : ℝ, pm.method.maghrib = .Minutes m →
      (postprocess pm r).maghrib = (postprocess pm r).sunset - m / 60) ∧
    (∀ m : ℝ, pm.method.isha = .Minutes m →
      (postprocess pm r).isha = (postprocess pm r).maghrib - m / 60) ∧
    (∀ a : ℝ, pm.method.imsak = .Angle a →
      (postprocess pm r).imsak = (highlat_adjusted pm r).imsak) ∧
    (∀ a : ℝ, pm.method.maghrib = .Angle a →
      (postprocess pm r).maghrib = (highlat_adjusted pm r).maghrib) ∧
    (∀ a : ℝ, pm.method.isha = .Angle a →
      (postprocess pm r).isha = (highlat_adjusted pm r).isha) := by
  refine ⟨?_, ?_, ?_, ?_, ?_, ?_⟩ <;> intro m h <;> simp only [postprocess, h]

/-- Witness for `minutes_overrides`: one configuration with all three
parameters minutes-valued and one with all three angle-valued. -/
theorem minutes_overrides_witness :
    ((postprocess ⟨⟨.Minutes 10, 18, 0, .Standard, .Minutes 0, .Minutes 90, .Standard⟩,
        none⟩ (⟨1, 2, 3, 4, 5, 6, 7, 8⟩ : RawTimes ℝ)).imsak =
      (postprocess ⟨⟨.Minutes 10, 18, 0, .Standard, .Minutes 0, .Minutes 90, .Standard⟩,
        none⟩ (⟨1, 2, 3, 4, 5, 6, 7, 8⟩ : RawTimes ℝ)).fajr - 10 / 60) ∧
    ((postprocess ⟨⟨.Angle 9, 18, 0, .Standard, .Angle 4, .Angle 17, .Standard⟩,
        some .NightMiddle⟩ (⟨1, 2, 3, 4, 5, 6, 7, 8⟩ : RawTimes ℝ)).isha =
      (highlat_adjusted ⟨⟨.Angle 9, 18, 0, .Standard, .Angle 4, .Angle 17, .Standard⟩,
        some .NightMiddle⟩ (⟨1, 2, 3, 4, 5, 6, 7, 8⟩ : RawTimes ℝ)).isha) :=
  ⟨(minutes_overrides _ _).1 10 rfl, (minutes_overrides _ _).2.2.2.2.2 17 rfl⟩

/-- The clamp stage does nothing when no strategy is configured. -/
theorem highlat_adjusted_none (method : CalculationMethod ℝ) (r : RawTimes ℝ) :
    highlat_adjusted ⟨method, none⟩ r = r := rfl

theorem adjust_highlat_time_true (hl : HightLatMethods) (time base angle night : ℝ) :
    adjust_highlat_time hl time base angle night true =
      if night_portion hl angle night > time_diff time base then time
      else base + -night_portion hl angle night := by
  rw [adjust_highlat_time]
  norm_num

theorem adjust_highlat_time_false (hl : HightLatMethods) (time base angle night : ℝ) :
    adjust_highlat_time hl time base angle night false =
      if night_portion hl angle night > time_diff base time then time
      else base + night_portion hl angle night := by
  rw [adjust_highlat_time]
  norm_num

/-- C3: when every raw angle-derived solution already lies strictly inside
the allowed night portion (its `time_diff` distance to sunrise resp. sunset
is smaller than `night_portion`), the high-latitude clamp keeps all four
raw values, so the returned times with the strategy equal the ones
without. -/
theorem highlat_noop_on_valid (method : CalculationMethod ℝ) (hl : HightLatMethods)
    (r : RawTimes ℝ)
    (himsak : time_diff r.imsak r.sunrise <
      night_portion hl method.imsak.unwrap (time_diff r.sunset r.sunrise))
    (hfajr : time_diff r.fajr r.sunrise <
      night_portion hl method.fajr (time_diff r.sunset r.sunrise))
    (hmaghrib : time_diff r.sunset r.maghrib <
      night_portion hl method.maghrib.unwrap (time_diff r.sunset r.sunrise))
    (hisha : time_diff r.sunset r.isha <
      night_portion hl method.isha.unwrap (time_diff r.sunset r.sunrise)) :
    postprocess ⟨method, some hl⟩ r = postprocess ⟨method, none⟩ r := by
  have hadj : highlat_adjusted ⟨method, some hl⟩ r = r := by
    have e1 : adjust_highlat_time hl r.imsak r.sunrise method.imsak.unwrap
        (time_diff r.sunset r.sunrise) true = r.imsak := by
      rw [adjust_highlat_time_true, if_pos himsak]
    have e2 : adjust_highlat_time hl r.fajr r.sunrise method.fajr
        (time_diff r.sunset r.sunrise) true = r.fajr := by
      rw [adjust_highlat_time_true, if_pos hfajr]
    have e3 : adjust_highlat_time hl r.maghrib r.sunset method.maghrib.unwrap
        (time_diff r.sunset r.sunrise) false = r.maghrib := by
      rw [adjust_highlat_time_false, if_pos hmaghrib]
    have e4 : adjust_highlat_time hl r.isha r.sunset method.isha.unwrap
        (time_diff r.sunset r.sunrise) false = r.isha := by
      rw [adjust_highlat_time_false, if_pos hisha]
    obtain ⟨ri, rf, rsr, rd, ra, rss, rm, rish⟩ := r
    simp only [highlat_adjusted] at *
    rw [e1, e2, e3, e4]
  simp only [postprocess, hadj, highlat_adjusted_none]

/-- Witness for `highlat_noop_on_valid`: the Muslim World League
parameters, NightMiddle strategy, a 12-hour night and all four raw
solutions within one hour of their base, where the allowed portion is six
hours. -/
theorem highlat_noop_on_valid_witness :
    postprocess ⟨CalculationMethod.ofFajrIsha 18 (.Angle 17), some .NightMiddle⟩
        (⟨5, 5.2, 6, 12, 15, 18, 18.5, 19⟩ : RawTimes ℝ) =
      postprocess ⟨CalculationMethod.ofFajrIsha 18 (.Angle 17), none⟩
        (⟨5, 5.2, 6, 12, 15, 18, 18.5, 19⟩ : RawTimes ℝ) := by
  have hnight : time_diff (18 : ℝ) 6 = 12 := by
    rw [time_diff, show (6 : ℝ) - 18 = -12 by norm_num,
      fix_hour_eval_neg (by norm_num) (by norm_num)]
    norm_num
  refine highlat_noop_on_valid _ _ _ ?_ ?_ ?_ ?_ <;>
    simp only [CalculationMethod.ofFajrIsha, CalculationMethod.new, Option.getD,
      CalculationType.unwrap, night_portion, hnight] <;>
    rw [time_diff] <;> norm_num <;>
    rw [fix_hour_eval (by norm_num) (by norm_num)] <;> norm_num


/-- The prayer times of the repository's reference scenario: Muslim World
League parameters, no high-latitude strategy, 2021-04-12 UTC at
(38.8976763, -77.036529, 18.0 m). -/
noncomputable def mwl_test_times : PrayerTimes ℝ :=
  (PrayerManager.new CalculationMethods.MWL none).get_times ⟨2021, 4, 12⟩
    ⟨38.8976763, -77.036529, 18.0⟩

/-- C2 counterexample: the nine quoted four-digit constants cannot all be
within 1e-6 of the returned values.  With the MWL method the code returns
`midnight = sunset + fix_hour (sunrise - sunset) / 2` exactly; any values
within 1e-6 of the quoted Sunrise (10.5819) and Sunset (23.7224) force
`midnight = 12 + (sunrise + sunset) / 2` within 2e-6 of 29.15215, about
5e-5 away from the quoted Midnight constant 29.1522. -/
theorem mwl_reference_constants_inconsistent :
    ¬(|mwl_test_times.imsak - 8.8601| ≤ 1e-6 ∧
      |mwl_test_times.fajr - 9.0268| ≤ 1e-6 ∧
      |mwl_test_times.sunrise - 10.5819| ≤ 1e-6 ∧
      |mwl_test_times.dhuhr - 17.1471| ≤ 1e-6 ∧
      |mwl_test_times.asr - 20.8315| ≤ 1e-6 ∧
      |mwl_test_times.sunset - 23.7224| ≤ 1e-6 ∧
      |mwl_test_times.maghrib - 23.7224| ≤ 1e-6 ∧
      |mwl_test_times.isha - 25.1845| ≤ 1e-6 ∧
      |mwl_test_times.midnight - 29.1522| ≤ 1e-6) := by
  intro h
  obtain ⟨-, -, hsr, -, -, hss, -, -, hmid⟩ := h
  have hident : mwl_test_times.midnight =
      mwl_test_times.sunset +
        dmath.fix_hour (mwl_test_times.sunrise - mwl_test_times.sunset) / 2 := rfl
  rw [abs_le] at hsr hss hmid
  have hd1 : -24 < mwl_test_times.sunrise - mwl_test_times.sunset := by
    linarith [hsr.1, hss.2]
  have hd2 : mwl_test_times.sunrise - mwl_test_times.sunset < 0 := by
    linarith [hsr.2, hss.1]
  rw [hident, fix_hour_eval_neg hd1 hd2] at hmid
  linarith [hsr.2, hss.2, hmid.1]

/-- C2 amended: the claimed per-field constants are impossible at tolerance
1e-6.  What the code guarantees structurally for the MWL configuration
(Maghrib = 0 minutes after Sunset, Standard midnight) is
`maghrib = sunset` and `midnight = 12 + (sunrise + sunset) / 2` whenever
`sunrise - sunset` lies in `(-24, 0)`; under that identity no values within
1e-6 of the quoted Sunrise and Sunset constants can put Midnight within
1e-6 of the quoted 29.1522 (the four-digit constants satisfy the identity
only to about 5e-5, their rounding level). -/
theorem mwl_structure_forces_midnight (r : RawTimes ℝ)
    (h0 : -24 < r.sunrise - r.sunset) (h1 : r.sunrise - r.sunset < 0) :
    (postprocess (PrayerManager.new CalculationMethods.MWL none) r).maghrib =
      (postprocess (PrayerManager.new CalculationMethods.MWL none) r).sunset ∧
    (postprocess (PrayerManager.new CalculationMethods.MWL none) r).midnight =
      12 + (r.sunrise + r.sunset) / 2 ∧
    ∀ u s m : ℝ, |u - 10.5819| ≤ 1e-6 → |s - 23.7224| ≤ 1e-6 →
      |m - 29.1522| ≤ 1e-6 → m ≠ 12 + (u + s) / 2 := by
  refine ⟨?_, ?_, ?_⟩
  · show r.sunset - 0 / 60 = r.sunset
    norm_num
  · show r.sunset + dmath.fix_hour (r.sunrise - r.sunset) / 2 = _
    rw [fix_hour_eval_neg h0 h1]
    ring
  · intro u s m hu hs hm heq
    rw [abs_le] at hu hs hm
    linarith [hu.2, hs.2, hm.1]

/-- Witness for `mwl_structure_forces_midnight` at a concrete raw-times
record with `sunrise = 10` and `sunset = 20`. -/
theorem mwl_structure_forces_midnight_witness :
    (postprocess (PrayerManager.new CalculationMethods.MWL none)
        (⟨5, 5.2, 10, 12, 15, 20, 19, 21⟩ : RawTimes ℝ)).maghrib =
      (postprocess (PrayerManager.new CalculationMethods.MWL none)
        (⟨5, 5.2, 10, 12, 15, 20, 19, 21⟩ : RawTimes ℝ)).sunset ∧
    (postprocess (PrayerManager.new CalculationMethods.MWL none)
        (⟨5, 5.2, 10, 12, 15, 20, 19, 21⟩ : RawTimes ℝ)).midnight =
      12 + ((10 : ℝ) + 20) / 2 ∧
    ∀ u s m : ℝ, |u - 10.5819| ≤ 1e-6 → |s - 23.7224| ≤ 1e-6 →
      |m - 29.1522| ≤ 1e-6 → m ≠ 12 + (u + s) / 2 :=
  mwl_structure_forces_midnight ⟨5, 5.2, 10, 12, 15, 20, 19, 21⟩
    (by norm_num) (by norm_num)

/-- A manager whose Maghrib parameter is a 60-minute offset. -/
noncomputable def maghrib60_manager : PrayerManager ℝ :=
  ⟨CalculationMethod.new none 18 none (some (.Minutes 60)) (.Angle 17) none, none⟩

/-- C6 (evidence for the code bug): with a minutes-valued Maghrib parameter
of 60 minutes the returned Maghrib is `sunset - 60/60`, strictly BEFORE
Sunset, for the reference date and position — the code subtracts the
offset where the algorithm it implements places Maghrib after Sunset. -/
theorem maghrib_minutes_precede_sunset :
    (maghrib60_manager.get_times ⟨2021, 4, 12⟩
        ⟨38.8976763, -77.036529, 18.0⟩).maghrib <
    (maghrib60_manager.get_times ⟨2021, 4, 12⟩
        ⟨38.8976763, -77.036529, 18.0⟩).sunset := by
  have key : ∀ x : ℝ, x - 60 / 60 < x := fun x => by norm_num
  exact key _

/-- A `CalculationMethod` value reachable through the public constructors
(`new`, and `from` which delegates to `new`): the type's fields are private
in the source crate, so these are the only ways to build one. -/
def Constructible (m : CalculationMethod ℝ) : Prop :=
  ∃ imsak fajr asr maghrib isha midnight,
    m = CalculationMethod.new imsak fajr asr maghrib isha midnight

/-- C9: every constructible method has `dhuhr = 0` (the constructor
hard-codes the field), every named preset resolved by
`get_calculation_method` has `dhuhr = 0` (Custom payloads being themselves
constructible), and consequently the returned Dhuhr is always
`mid_day jd (12/24) - lng/15` with no configurable offset. -/
theorem dhuhr_offset_always_zero :
    (∀ m : CalculationMethod ℝ, Constructible m → m.dhuhr = 0) ∧
    (∀ meth : CalculationMethods ℝ,
      (∀ v, meth = .Custom v → Constructible v) →
      (PrayerManager.get_calculation_method meth).dhuhr = 0) ∧
    (∀ m : CalculationMethod ℝ, Constructible m →
      ∀ (hl : Option HightLatMethods) (date : DateUtc) (coords : Coordinates),
      ((PrayerManager.mk m hl).get_times date coords).dhuhr =
        mid_day (get_julian_day date - coords.lng / (15 * 24)) (12 / 24) -
          coords.lng / 15) := by
  have base : ∀ m : CalculationMethod ℝ, Constructible m → m.dhuhr = 0 := by
    rintro m ⟨i, f, a, mg, is, mid, rfl⟩
    rfl
  refine ⟨base, ?_, ?_⟩
  · intro meth h
    cases meth with
    | Custom v => exact base v (h v rfl)
    | Makkah is_ramadan => rfl
    | _ => rfl
  · intro m hm hl date coords
    have hdz : m.dhuhr = 0 := base m hm
    have hproj : ((PrayerManager.mk m hl).get_times date coords).dhuhr =
        mid_day (get_julian_day date - coords.lng / (15 * 24)) (12 / 24) -
          coords.lng / 15 + m.dhuhr / 60 := by
      cases hl with
      | none => rfl
      | some s => rfl
    rw [hproj, hdz]
    norm_num

/-! ### C7: Asr monotonicity in the shadow factor

The date and hour-fraction enter `asr_time` (src/prayer.rs lines 358-367)
only through the ephemeris pair `sun_position (julian_day + time)`, which
the inner `sun_angle_time` call re-samples at the same instant; the
factored `asr_time_at` makes that pair explicit, so statements quantifying
over `(decl, eqt)` cover every date.  The declination of the model's
ephemeris stays within roughly `[-23.44, 23.44]` degrees, so the
counterexample value `decl = -23` is attained near the winter solstice. -/

theorem dsin_neg_arccot_of_pos {y : ℝ} (hy : 0 < y) :
    dmath.sin (-dmath.arccot y) = -(1 / Real.sqrt (y ^ 2 + 1)) := by
  have hπ : Real.pi ≠ 0 := Real.pi_ne_zero
  have hy0 : y ≠ 0 := ne_of_gt hy
  have harg : -dmath.arccot y * (Real.pi / 180) = -Real.arctan (1 / y) := by
    rw [dmath.arccot]
    field_simp
    ring
  rw [dmath.sin, harg, Real.sin_neg, Real.sin_arctan]
  have h1 : (1 : ℝ) + (1 / y) ^ 2 = (y ^ 2 + 1) / y ^ 2 := by
    field_simp
  have hs : Real.sqrt (1 + (1 / y) ^ 2) = Real.sqrt (y ^ 2 + 1) / y := by
    rw [h1, Real.sqrt_div (by positivity) (y ^ 2), Real.sqrt_sq hy.le]
  have hsq : (0 : ℝ) < Real.sqrt (y ^ 2 + 1) := Real.sqrt_pos.mpr (by positivity)
  have hsq' : Real.sqrt (y ^ 2 + 1) ≠ 0 := ne_of_gt hsq
  rw [hs]
  field_simp

theorem dsin_neg_arccot_of_neg {y : ℝ} (hy : y < 0) :
    dmath.sin (-dmath.arccot y) = 1 / Real.sqrt (y ^ 2 + 1) := by
  have hπ : Real.pi ≠ 0 := Real.pi_ne_zero
  have hy0 : y ≠ 0 := ne_of_lt hy
  have harg : -dmath.arccot y * (Real.pi / 180) = -Real.arctan (1 / y) := by
    rw [dmath.arccot]
    field_simp
    ring
  rw [dmath.sin, harg, Real.sin_neg, Real.sin_arctan]
  have h1 : (1 : ℝ) + (1 / y) ^ 2 = (y ^ 2 + 1) / y ^ 2 := by
    field_simp
  have hs : Real.sqrt (1 + (1 / y) ^ 2) = Real.sqrt (y ^ 2 + 1) / (-y) := by
    rw [h1, Real.sqrt_div (by positivity) (y ^ 2), Real.sqrt_sq_eq_abs, abs_of_neg hy]
  have hsq : (0 : ℝ) < Real.sqrt (y ^ 2 + 1) := Real.sqrt_pos.mpr (by positivity)
  have hsq' : Real.sqrt (y ^ 2 + 1) ≠ 0 := ne_of_gt hsq
  rw [hs]
  field_simp

theorem sqrt_tan_sq_add_one {θ : ℝ} (hc : 0 < Real.cos θ) :
    Real.sqrt (Real.tan θ ^ 2 + 1) = 1 / Real.cos θ := by
  have h : Real.tan θ ^ 2 + 1 = (1 / Real.cos θ) ^ 2 := by
    rw [Real.tan_eq_sin_div_cos]
    field_simp
  rw [h, Real.sqrt_sq (by positivity)]

/-- The solved Asr hour for the Standard convention, written out. -/
theorem asr_time_at_standard (decl eqt lat : ℝ) :
    asr_time_at decl eqt lat .Standard =
      dmath.fix_hour (12 - eqt) + 1 / 15 * dmath.arccos
        ((-dmath.sin (-dmath.arccot (1.0 + dmath.tan |lat - decl|)) -
            dmath.sin decl * dmath.sin lat) / (dmath.cos decl * dmath.cos lat)) := rfl

/-- The solved Asr hour for the Hanafi convention, written out. -/
theorem asr_time_at_hanafi (decl eqt lat : ℝ) :
    asr_time_at decl eqt lat .Hanafi =
      dmath.fix_hour (12 - eqt) + 1 / 15 * dmath.arccos
        ((-dmath.sin (-dmath.arccot (2.0 + dmath.tan |lat - decl|)) -
            dmath.sin decl * dmath.sin lat) / (dmath.cos decl * dmath.cos lat)) := rfl

/-- C7 amended: switching the Asr convention from Standard (factor 1) to
Hanafi (factor 2) strictly increases the solved Asr hour for every
ephemeris sample (declination, equation of time) and latitude, in degrees,
with `-90 < decl < lat < 90`, `lat - decl < 90` and
`-90 < decl + lat < 90` — the window on which the arccos argument of the
Standard solution stays inside `(-1, 1)`.  Without such a window the
unconditional claim fails: see the counterexample, where both factors
clamp to the same value. -/
theorem asr_hanafi_after_standard (decl eqt lat : ℝ)
    (hd : -90 < decl) (hdl : decl < lat) (hl : lat < 90)
    (hdiff : lat - decl < 90) (hsum_lo : -90 < decl + lat) (hsum_hi : decl + lat < 90) :
    asr_time_at decl eqt lat .Standard < asr_time_at decl eqt lat .Hanafi := by
  have hπ : (0 : ℝ) < Real.pi := Real.pi_pos
  have hk0 : (0 : ℝ) < Real.pi / 180 := by positivity
  have h90 : (90 : ℝ) * (Real.pi / 180) = Real.pi / 2 := by ring
  have habs : |lat - decl| = lat - decl := abs_of_pos (by linarith)
  -- the tangent of the shadow base angle is positive
  have hθT0 : 0 < (lat - decl) * (Real.pi / 180) := by
    have : (0 : ℝ) < lat - decl := by linarith
    positivity
  have hθT1 : (lat - decl) * (Real.pi / 180) < Real.pi / 2 := by
    rw [← h90]
    exact mul_lt_mul_of_pos_right hdiff hk0
  have hT : 0 < dmath.tan (lat - decl) :=
    Real.tan_pos_of_pos_of_lt_pi_div_two hθT0 hθT1
  -- positive cosines
  have hcosd : 0 < Real.cos (decl * (Real.pi / 180)) := by
    apply Real.cos_pos_of_mem_Ioo
    constructor
    · rw [show -(Real.pi / 2) = (-90 : ℝ) * (Real.pi / 180) by ring]
      exact mul_lt_mul_of_pos_right hd hk0
    · rw [← h90]
      exact mul_lt_mul_of_pos_right (by linarith) hk0
  have hcosl : 0 < Real.cos (lat * (Real.pi / 180)) := by
    apply Real.cos_pos_of_mem_Ioo
    constructor
    · rw [show -(Real.pi / 2) = (-90 : ℝ) * (Real.pi / 180) by ring]
      exact mul_lt_mul_of_pos_right (by linarith) hk0
    · rw [← h90]
      exact mul_lt_mul_of_pos_right hl hk0
  have hC : 0 < dmath.cos decl * dmath.cos lat := mul_pos hcosd hcosl
  -- the two sine values
  have e1 : -dmath.sin (-dmath.arccot (1.0 + dmath.tan |lat - decl|)) =
      1 / Real.sqrt ((1.0 + dmath.tan (lat - decl)) ^ 2 + 1) := by
    rw [habs, dsin_neg_arccot_of_pos (by linarith), neg_neg]
  have e2 : -dmath.sin (-dmath.arccot (2.0 + dmath.tan |lat - decl|)) =
      1 / Real.sqrt ((2.0 + dmath.tan (lat - decl)) ^ 2 + 1) := by
    rw [habs, dsin_neg_arccot_of_pos (by linarith), neg_neg]
  -- the Hanafi sine value is strictly smaller
  have h1sqrt : (0 : ℝ) < Real.sqrt ((1.0 + dmath.tan (lat - decl)) ^ 2 + 1) :=
    Real.sqrt_pos.mpr (by positivity)
  have hs21 : 1 / Real.sqrt ((2.0 + dmath.tan (lat - decl)) ^ 2 + 1) <
      1 / Real.sqrt ((1.0 + dmath.tan (lat - decl)) ^ 2 + 1) := by
    have hlt : (1.0 + dmath.tan (lat - decl)) ^ 2 + 1 <
        (2.0 + dmath.tan (lat - decl)) ^ 2 + 1 := by nlinarith [hT]
    exact one_div_lt_one_div_of_lt h1sqrt (Real.sqrt_lt_sqrt (by positivity) hlt)
  -- cos(lat - decl) = 1/sqrt(tan^2+1) joins the sine values to the method sum
  have hcosT : 0 < Real.cos ((lat - decl) * (Real.pi / 180)) :=
    Real.cos_pos_of_mem_Ioo ⟨by linarith, hθT1⟩
  have hCS : dmath.cos decl * dmath.cos lat + dmath.sin decl * dmath.sin lat =
      1 / Real.sqrt (dmath.tan (lat - decl) ^ 2 + 1) := by
    simp only [dmath.sin, dmath.cos, dmath.tan]
    rw [sqrt_tan_sq_add_one hcosT, one_div_one_div,
      show (lat - decl) * (Real.pi / 180) =
        lat * (Real.pi / 180) - decl * (Real.pi / 180) by ring,
      Real.cos_sub]
    ring
  -- the Standard arccos argument lies strictly inside (-1, 1)
  have harg1_lt1 : (1 / Real.sqrt ((1.0 + dmath.tan (lat - decl)) ^ 2 + 1) -
      dmath.sin decl * dmath.sin lat) / (dmath.cos decl * dmath.cos lat) < 1 := by
    rw [div_lt_one hC]
    have hmono : 1 / Real.sqrt ((1.0 + dmath.tan (lat - decl)) ^ 2 + 1) <
        1 / Real.sqrt (dmath.tan (lat - decl) ^ 2 + 1) := by
      have hlt : dmath.tan (lat - decl) ^ 2 + 1 <
          (1.0 + dmath.tan (lat - decl)) ^ 2 + 1 := by nlinarith [hT]
      have hpos : (0 : ℝ) < Real.sqrt (dmath.tan (lat - decl) ^ 2 + 1) :=
        Real.sqrt_pos.mpr (by positivity)
      exact one_div_lt_one_div_of_lt hpos (Real.sqrt_lt_sqrt (by positivity) hlt)
    linarith [hCS]
  have harg1_gt : (-1 : ℝ) < (1 / Real.sqrt ((1.0 + dmath.tan (lat - decl)) ^ 2 + 1) -
      dmath.sin decl * dmath.sin lat) / (dmath.cos decl * dmath.cos lat) := by
    rw [lt_div_iff₀ hC]
    have hsum : dmath.cos decl * dmath.cos lat - dmath.sin decl * dmath.sin lat =
        Real.cos ((decl + lat) * (Real.pi / 180)) := by
      simp only [dmath.sin, dmath.cos]
      rw [show (decl + lat) * (Real.pi / 180) =
          decl * (Real.pi / 180) + lat * (Real.pi / 180) by ring,
        Real.cos_add]
    have hcossum : 0 < Real.cos ((decl + lat) * (Real.pi / 180)) := by
      apply Real.cos_pos_of_mem_Ioo
      constructor
      · rw [show -(Real.pi / 2) = (-90 : ℝ) * (Real.pi / 180) by ring]
        exact mul_lt_mul_of_pos_right hsum_lo hk0
      · rw [← h90]
        exact mul_lt_mul_of_pos_right hsum_hi hk0
    have hs1pos : (0 : ℝ) <
        1 / Real.sqrt ((1.0 + dmath.tan (lat - decl)) ^ 2 + 1) := by positivity
    linarith [hsum, hcossum, hs1pos]
  have harg21 : (1 / Real.sqrt ((2.0 + dmath.tan (lat - decl)) ^ 2 + 1) -
      dmath.sin decl * dmath.sin lat) / (dmath.cos decl * dmath.cos lat) <
      (1 / Real.sqrt ((1.0 + dmath.tan (lat - decl)) ^ 2 + 1) -
      dmath.sin decl * dmath.sin lat) / (dmath.cos decl * dmath.cos lat) :=
    (div_lt_div_iff_of_pos_right hC).mpr (by linarith [hs21])
  -- the arccos is strictly larger for the Hanafi argument
  have harc : Real.arccos ((1 / Real.sqrt ((1.0 + dmath.tan (lat - decl)) ^ 2 + 1) -
      dmath.sin decl * dmath.sin lat) / (dmath.cos decl * dmath.cos lat)) <
      Real.arccos ((1 / Real.sqrt ((2.0 + dmath.tan (lat - decl)) ^ 2 + 1) -
      dmath.sin decl * dmath.sin lat) / (dmath.cos decl * dmath.cos lat)) := by
    rcases le_or_lt (-1) ((1 / Real.sqrt ((2.0 + dmath.tan (lat - decl)) ^ 2 + 1) -
        dmath.sin decl * dmath.sin lat) / (dmath.cos decl * dmath.cos lat)) with h2 | h2
    · exact Real.strictAntiOn_arccos ⟨h2, by linarith⟩
        ⟨by linarith, by linarith⟩ harg21
    · rw [Real.arccos_of_le_neg_one h2.le]
      refine lt_of_le_of_ne (Real.arccos_le_pi _) fun he => ?_
      exact absurd (Real.arccos_eq_pi.mp he) (by linarith)
  -- assemble
  rw [asr_time_at_standard, asr_time_at_hanafi, e1, e2]
  simp only [dmath.arccos]
  have hfinal := mul_lt_mul_of_pos_right harc
    (show (0 : ℝ) < 180 / Real.pi by positivity)
  linarith [hfinal]

/-- Witness for `asr_hanafi_after_standard` at declination 0, equation of
time 0 and latitude 45 degrees. -/
theorem asr_hanafi_after_standard_witness :
    asr_time_at 0 0 45 .Standard < asr_time_at 0 0 45 .Hanafi :=
  asr_hanafi_after_standard 0 0 45 (by norm_num) (by norm_num) (by norm_num)
    (by norm_num) (by norm_num) (by norm_num)

/-- Certified bounds for `sin 22°` via the cubic Taylor bound. -/
theorem sin22_bounds :
    0.373 ≤ Real.sin (11 * Real.pi / 90) ∧ Real.sin (11 * Real.pi / 90) ≤ 0.377 := by
  have hπl : (3.141592 : ℝ) < Real.pi := Real.pi_gt_d6
  have hπu : Real.pi < 3.141593 := Real.pi_lt_d6
  have hxlo : (0.38397 : ℝ) ≤ 11 * Real.pi / 90 := by linarith
  have hxhi : 11 * Real.pi / 90 ≤ 0.38398 := by linarith
  have hx0 : (0 : ℝ) ≤ 11 * Real.pi / 90 := by linarith
  have habs : |11 * Real.pi / 90| ≤ 1 := by
    rw [abs_of_nonneg hx0]
    linarith
  have hb := Real.sin_bound habs
  rw [abs_le, abs_of_nonneg hx0] at hb
  have h3hi : (11 * Real.pi / 90) ^ 3 ≤ (0.38398 : ℝ) ^ 3 := pow_le_pow_left₀ hx0 hxhi 3
  have h3lo : (0.38397 : ℝ) ^ 3 ≤ (11 * Real.pi / 90) ^ 3 :=
    pow_le_pow_left₀ (by norm_num) hxlo 3
  have h4hi : (11 * Real.pi / 90) ^ 4 ≤ (0.38398 : ℝ) ^ 4 := pow_le_pow_left₀ hx0 hxhi 4
  have h40 : (0 : ℝ) ≤ (11 * Real.pi / 90) ^ 4 := by positivity
  have c3hi : (0.38398 : ℝ) ^ 3 ≤ 0.05662 := by norm_num
  have c3lo : (0.056609 : ℝ) ≤ (0.38397 : ℝ) ^ 3 := by norm_num
  have c4hi : (0.38398 : ℝ) ^ 4 ≤ 0.021742 := by norm_num
  constructor
  · linarith [hb.1]
  · linarith [hb.2]

/-- Certified bounds for `cos 22°` via the quadratic Taylor bound. -/
theorem cos22_bounds :
    0.9248 ≤ Real.cos (11 * Real.pi / 90) ∧ Real.cos (11 * Real.pi / 90) ≤ 0.9276 := by
  have hπl : (3.141592 : ℝ) < Real.pi := Real.pi_gt_d6
  have hπu : Real.pi < 3.141593 := Real.pi_lt_d6
  have hxlo : (0.38397 : ℝ) ≤ 11 * Real.pi / 90 := by linarith
  have hxhi : 11 * Real.pi / 90 ≤ 0.38398 := by linarith
  have hx0 : (0 : ℝ) ≤ 11 * Real.pi / 90 := by linarith
  have habs : |11 * Real.pi / 90| ≤ 1 := by
    rw [abs_of_nonneg hx0]
    linarith
  have hb := Real.cos_bound habs
  rw [abs_le, abs_of_nonneg hx0] at hb
  have h2hi : (11 * Real.pi / 90) ^ 2 ≤ (0.38398 : ℝ) ^ 2 := pow_le_pow_left₀ hx0 hxhi 2
  have h2lo : (0.38397 : ℝ) ^ 2 ≤ (11 * Real.pi / 90) ^ 2 :=
    pow_le_pow_left₀ (by norm_num) hxlo 2
  have h4hi : (11 * Real.pi / 90) ^ 4 ≤ (0.38398 : ℝ) ^ 4 := pow_le_pow_left₀ hx0 hxhi 4
  have h40 : (0 : ℝ) ≤ (11 * Real.pi / 90) ^ 4 := by positivity
  have c2hi : (0.38398 : ℝ) ^ 2 ≤ 0.14745 := by norm_num
  have c2lo : (0.14743 : ℝ) ≤ (0.38397 : ℝ) ^ 2 := by norm_num
  have c4hi : (0.38398 : ℝ) ^ 4 ≤ 0.021742 := by norm_num
  constructor
  · linarith [hb.1]
  · linarith [hb.2]

/-- Certified bounds for `tan 112° = -cot 22°`. -/
theorem tan112_bounds :
    Real.tan ((112 : ℝ) * (Real.pi / 180)) ≤ -2.45 ∧
    -2.49 ≤ Real.tan ((112 : ℝ) * (Real.pi / 180)) := by
  have hs := sin22_bounds
  have hc := cos22_bounds
  have hspos : 0 < Real.sin (11 * Real.pi / 90) := by linarith [hs.1]
  have htan : Real.tan ((112 : ℝ) * (Real.pi / 180)) =
      -(Real.cos (11 * Real.pi / 90) / Real.sin (11 * Real.pi / 90)) := by
    rw [show (112 : ℝ) * (Real.pi / 180) = -(68 * (Real.pi / 180)) + Real.pi by ring,
      Real.tan_add_pi, Real.tan_neg,
      show (68 : ℝ) * (Real.pi / 180) = Real.pi / 2 - 11 * Real.pi / 90 by ring,
      Real.tan_pi_div_two_sub, Real.tan_eq_sin_div_cos, inv_div]
  rw [htan]
  constructor
  · have h1 : (2.45 : ℝ) ≤ Real.cos (11 * Real.pi / 90) / Real.sin (11 * Real.pi / 90) := by
      rw [le_div_iff₀ hspos]
      nlinarith [hs.2, hc.1]
    linarith
  · have h1 : Real.cos (11 * Real.pi / 90) / Real.sin (11 * Real.pi / 90) ≤ 2.49 := by
      rw [div_le_iff₀ hspos]
      nlinarith [hs.1, hc.2]
    linarith

/-- C7 counterexample: at declination -23° (attained near the winter
solstice), equation of time 0 and latitude 89°, the declination is below
the latitude yet the Hanafi Asr equals the Standard Asr: for both shadow
factors the arccos argument falls below -1 (its real value is about -10.6
for factor 1 and -31.9 for factor 2), so both solutions clamp to
`fix_hour 12 + 12` and the switch does not increase the hour.  (In the f64
code the same inputs make both arguments overflow `acos`'s domain and both
results are NaN, likewise not a strict increase.) -/
theorem asr_factor_clamped_at_winter_high_latitude :
    (-23 : ℝ) < 89 ∧
    asr_time_at (-23 : ℝ) 0 89 .Hanafi = asr_time_at (-23 : ℝ) 0 89 .Standard := by
  refine ⟨by norm_num, ?_⟩
  rw [asr_time_at_standard, asr_time_at_hanafi]
  have habs : |(89 : ℝ) - -23| = 112 := by norm_num
  rw [habs]
  have hTeq : dmath.tan (112 : ℝ) = Real.tan ((112 : ℝ) * (Real.pi / 180)) := rfl
  have hTb := tan112_bounds
  rw [← hTeq] at hTb
  have hy1 : (1.0 : ℝ) + dmath.tan (112 : ℝ) < 0 := by linarith [hTb.1]
  have hy2 : (2.0 : ℝ) + dmath.tan (112 : ℝ) < 0 := by linarith [hTb.1]
  rw [dsin_neg_arccot_of_neg hy1, dsin_neg_arccot_of_neg hy2]
  have hπ := Real.pi_pos
  have hcos23 : 0 < Real.cos ((23 : ℝ) * (Real.pi / 180)) :=
    Real.cos_pos_of_mem_Ioo ⟨by linarith, by linarith⟩
  have hcos89 : 0 < Real.cos ((89 : ℝ) * (Real.pi / 180)) :=
    Real.cos_pos_of_mem_Ioo ⟨by linarith, by linarith⟩
  have hCeq : dmath.cos (-23 : ℝ) * dmath.cos 89 =
      Real.cos ((23 : ℝ) * (Real.pi / 180)) * Real.cos ((89 : ℝ) * (Real.pi / 180)) := by
    show Real.cos ((-23 : ℝ) * (Real.pi / 180)) * Real.cos ((89 : ℝ) * (Real.pi / 180)) =
      Real.cos ((23 : ℝ) * (Real.pi / 180)) * Real.cos ((89 : ℝ) * (Real.pi / 180))
    rw [show ((-23 : ℝ)) * (Real.pi / 180) = -((23 : ℝ) * (Real.pi / 180)) by ring,
      Real.cos_neg]
  have hC : 0 < dmath.cos (-23 : ℝ) * dmath.cos 89 := by
    rw [hCeq]
    exact mul_pos hcos23 hcos89
  have hkey : dmath.sin (-23 : ℝ) * dmath.sin 89 =
      -(Real.sin ((23 : ℝ) * (Real.pi / 180)) * Real.sin ((89 : ℝ) * (Real.pi / 180))) := by
    show Real.sin ((-23 : ℝ) * (Real.pi / 180)) * Real.sin ((89 : ℝ) * (Real.pi / 180)) =
      -(Real.sin ((23 : ℝ) * (Real.pi / 180)) * Real.sin ((89 : ℝ) * (Real.pi / 180)))
    rw [show ((-23 : ℝ)) * (Real.pi / 180) = -((23 : ℝ) * (Real.pi / 180)) by ring,
      Real.sin_neg]
    ring
  have hsum : Real.sin ((23 : ℝ) * (Real.pi / 180)) * Real.sin ((89 : ℝ) * (Real.pi / 180)) +
      Real.cos ((23 : ℝ) * (Real.pi / 180)) * Real.cos ((89 : ℝ) * (Real.pi / 180)) =
      Real.sin (2 * Real.pi / 15) := by
    have h := Real.cos_sub ((89 : ℝ) * (Real.pi / 180)) ((23 : ℝ) * (Real.pi / 180))
    rw [show (89 : ℝ) * (Real.pi / 180) - (23 : ℝ) * (Real.pi / 180) =
        Real.pi / 2 - 2 * Real.pi / 15 by ring, Real.cos_pi_div_two_sub] at h
    linear_combination -h
  have hsmall : Real.sin (2 * Real.pi / 15) ≤ 0.41888 := by
    have h := Real.sin_lt (show (0 : ℝ) < 2 * Real.pi / 15 by positivity)
    linarith [Real.pi_lt_d6]
  have hbound : ∀ y : ℝ, -1.49 ≤ y → y ≤ -0.45 →
      (0.41888 : ℝ) ≤ 1 / Real.sqrt (y ^ 2 + 1) := by
    intro y h1 h2
    have hsq : y ^ 2 + 1 ≤ 3.2202 := by
      nlinarith [mul_nonneg (by linarith : (0 : ℝ) ≤ y + 1.49)
        (by linarith : (0 : ℝ) ≤ -0.45 - y)]
    have hsqrt_pos : (0 : ℝ) < Real.sqrt (y ^ 2 + 1) := Real.sqrt_pos.mpr (by positivity)
    have hsqrt : Real.sqrt (y ^ 2 + 1) ≤ 1.795 := by
      calc Real.sqrt (y ^ 2 + 1) ≤ Real.sqrt ((1.795 : ℝ) ^ 2) :=
            Real.sqrt_le_sqrt (by nlinarith)
        _ = 1.795 := Real.sqrt_sq (by norm_num)
    calc (0.41888 : ℝ) ≤ 1 / 1.795 := by norm_num
      _ ≤ 1 / Real.sqrt (y ^ 2 + 1) := one_div_le_one_div_of_le hsqrt_pos hsqrt
  have hle : ∀ y : ℝ, -1.49 ≤ y → y ≤ -0.45 →
      (-(1 / Real.sqrt (y ^ 2 + 1)) - dmath.sin (-23 : ℝ) * dmath.sin 89) /
        (dmath.cos (-23 : ℝ) * dmath.cos 89) ≤ -1 := by
    intro y h1 h2
    rw [div_le_iff₀ hC, hkey, hCeq]
    have hb := hbound y h1 h2
    linarith [hsum, hsmall, hb]
  have harccos : ∀ x : ℝ, x ≤ -1 → dmath.arccos x = 180 := by
    intro x hx
    rw [dmath.arccos, Real.arccos_of_le_neg_one hx]
    field_simp
  rw [harccos _ (hle _ (by linarith [hTb.2]) (by linarith [hTb.1])),
    harccos _ (hle _ (by linarith [hTb.2]) (by linarith [hTb.1]))]

/-- Witness for `dhuhr_offset_always_zero`: the MWL parameters are
constructible, the MWL preset resolves with `dhuhr = 0`, and a concrete
query returns Dhuhr equal to solar noon minus `lng/15`. -/
theorem dhuhr_offset_always_zero_witness :
    (CalculationMethod.new none (18 : ℝ) none none (.Angle 17) none).dhuhr = 0 ∧
    (PrayerManager.get_calculation_method (CalculationMethods.MWL : CalculationMethods ℝ)).dhuhr = 0 ∧
    ((PrayerManager.mk (CalculationMethod.new none (18 : ℝ) none none (.Angle 17) none)
        none).get_times ⟨2021, 4, 12⟩ ⟨38, -77, 18⟩).dhuhr =
      mid_day (get_julian_day ⟨2021, 4, 12⟩ - (-77 : ℝ) / (15 * 24)) (12 / 24) -
        (-77 : ℝ) / 15 :=
  ⟨dhuhr_offset_always_zero.1 _ ⟨none, 18, none, none, .Angle 17, none, rfl⟩,
   dhuhr_offset_always_zero.2.1 _ (fun _ h => nomatch h),
   dhuhr_offset_always_zero.2.2 _ ⟨none, 18, none, none, .Angle 17, none, rfl⟩
     none ⟨2021, 4, 12⟩ ⟨38, -77, 18⟩⟩

end Prayers
